import Mathlib

/-!
Shallow embedding of the yoapunto club/account/game API (Python/FastAPI +
SQLAlchemy) and verification of its specification claims.

Modelling conventions:
* Database rows are Lean structures; a table is a `List` of rows in insertion
  order (SQLAlchemy `.all()` with no `order_by` returns insertion order for
  this append-only schema; rows are never hard-deleted).
* `db.query(T).filter(pred).first()` is `List.find?`; `.all()` is
  `List.filter`; `.offset(skip).limit(limit)` is `List.drop`/`List.take`.
* Mutating a row obtained from `.first()` and committing is `replaceFirst`:
  the first row matching the filter is replaced, the rest are untouched.
* Timestamps are `Nat` (an abstract clock passed in as `now`); the
  `onupdate=func.now()` column default stamps `updated_at` on update.
* Auto-generated integer primary keys: SQLite assigns `max(id)+1`; since the
  schema is append-only (soft delete only), this never collides with any
  existing row, active or not.
* `HTTPException` raised by an endpoint is the `.error` branch of `Except`;
  a returned body is `.ok`.
* The bcrypt digest produced by `passlib` is an opaque external value; CRUD
  functions that store one take it as an explicit `hashed` argument, and the
  outcome of an external `pwd_context.verify` call is an explicit argument
  where a claim does not depend on it.
-/

namespace YoApunto

/-- Row of the `clubs` table (src/app/models/club.py). -/
structure Club where
  id : Nat
  nickname : String
  creator : String
  thumbnail_url : Option String
  active : Bool
  created_at : Nat
  updated_at : Option Nat
deriving DecidableEq, Repr

/-- Row of the `games` table (src/app/models/game.py). -/
structure Game where
  id : Nat
  name : String
  description : Option String
  game_composition : String
  min_number_of_teams : Option Nat
  max_number_of_teams : Option Nat
  min_number_of_players : Nat
  max_number_of_players : Option Nat
  min_number_of_players_per_teams : Option Nat
  max_number_of_players_per_teams : Option Nat
  thumbnail : Option String
  active : Bool
  created_at : Nat
  updated_at : Option Nat
deriving DecidableEq, Repr

/-- Row of the `accounts` table (src/app/models/account.py). -/
structure Account where
  id : Nat
  email_address : String
  first_name : String
  last_name : String
  password_digest : String
  club_id : Nat
  active : Bool
  email_verified : Bool
  last_login_at : Option Nat
  created_at : Nat
  updated_at : Option Nat
deriving DecidableEq, Repr

/-- The relational store: three entity tables plus the `club_games`
association table (src/app/models/club_games.py), each in insertion order.
An association row is the pair `(club_id, game_id)`. -/
structure DB where
  clubs : List Club
  games : List Game
  accounts : List Account
  club_games : List (Nat × Nat)
deriving DecidableEq, Repr

/-- Replace the first element satisfying `p` by its image under `f`,
leaving everything else untouched.  This is the effect of fetching a row
with `.first()`, mutating it and committing. -/
def replaceFirst (p : α → Bool) (f : α → α) : List α → List α
  | [] => []
  | x :: xs => if p x then f x :: xs else x :: replaceFirst p f xs

/-- Next auto-generated primary key: SQLite's `max(rowid)+1`.  Rows are never
hard-deleted, so this is always fresh. -/
def nextId (ids : List Nat) : Nat := ids.foldr max 0 + 1

/-- A raised `fastapi.HTTPException`. -/
structure HTTPException where
  status : Nat
  detail : String
deriving DecidableEq, Repr

instance {ε α : Type} [DecidableEq ε] [DecidableEq α] :
    DecidableEq (Except ε α) := fun a b =>
  match a, b with
  | .error e1, .error e2 =>
    if h : e1 = e2 then isTrue (by rw [h])
    else isFalse (by intro hc; cases hc; exact h rfl)
  | .ok x1, .ok x2 =>
    if h : x1 = x2 then isTrue (by rw [h])
    else isFalse (by intro hc; cases hc; exact h rfl)
  | .error _, .ok _ => isFalse (by intro hc; cases hc)
  | .ok _, .error _ => isFalse (by intro hc; cases hc)

/-! ### Club CRUD (src/app/crud/club.py) -/

/-- Request body for `POST /clubs` (src/app/schemas/club.py, `ClubCreate`). -/
structure ClubCreate where
  nickname : String
  creator : String
  thumbnail_url : Option String
deriving DecidableEq, Repr

/-- Request body for `PUT /clubs/{id}` (src/app/schemas/club.py,
`ClubUpdate`).  Every field is optional; `none` means the field was absent
from the request, so `model_dump(exclude_unset=True)` omits it. -/
structure ClubUpdate where
  nickname : Option String
  creator : Option String
  thumbnail_url : Option (Option String)
  active : Option Bool
deriving DecidableEq, Repr

/-- `create_club`: insert a new row with defaults
(`active=True`, `created_at=now()`, `updated_at=NULL`). -/
def create_club (db : DB) (club : ClubCreate) (now : Nat) : Club × DB :=
  let db_club : Club :=
    { id := nextId (db.clubs.map (·.id))
      nickname := club.nickname
      creator := club.creator
      thumbnail_url := club.thumbnail_url
      active := true
      created_at := now
      updated_at := none }
  (db_club, { db with clubs := db.clubs ++ [db_club] })

/-- `get_clubs`: active clubs, offset by `skip`, capped at `limit`. -/
def get_clubs (db : DB) (skip : Nat := 0) (limit : Nat := 100) : List Club :=
  ((db.clubs.filter (·.active)).drop skip).take limit

/-- `get_club`: first row with this id that is active, else `None`. -/
def get_club (db : DB) (club_id : Nat) : Option Club :=
  db.clubs.find? (fun c => c.id == club_id && c.active)

/-- The `setattr` loop of `update_club`: apply exactly the fields present in
the request (`model_dump(exclude_unset=True)`). -/
def applyClubUpdate (u : ClubUpdate) (c : Club) : Club :=
  { c with
    nickname := u.nickname.getD c.nickname
    creator := u.creator.getD c.creator
    thumbnail_url := u.thumbnail_url.getD c.thumbnail_url
    active := u.active.getD c.active }

/-- `update_club`: look up the active row, apply the provided fields, commit
(the `onupdate` column default stamps `updated_at`).  Returns the updated
row, or `None` leaving the store untouched. -/
def update_club (db : DB) (club_id : Nat) (club : ClubUpdate) (now : Nat) :
    Option Club × DB :=
  match db.clubs.find? (fun c => c.id == club_id && c.active) with
  | none => (none, db)
  | some db_club =>
    let c2 := { applyClubUpdate club db_club with updated_at := some now }
    let clubs2 :=
      replaceFirst (fun c => c.id == club_id && c.active) (fun _ => c2) db.clubs
    (some c2, { db with clubs := clubs2 })

/-- `deactivate_club`: flip `active` to false on the active row, else `None`
(commit stamps `updated_at` via the `onupdate` default). -/
def deactivate_club (db : DB) (club_id : Nat) (now : Nat) :
    Option Club × DB :=
  match db.clubs.find? (fun c => c.id == club_id && c.active) with
  | none => (none, db)
  | some db_club =>
    let c2 := { db_club with active := false, updated_at := some now }
    let clubs2 :=
      replaceFirst (fun c => c.id == club_id && c.active) (fun _ => c2) db.clubs
    (some c2, { db with clubs := clubs2 })

/-! ### Game CRUD (src/app/crud/game.py) -/

/-- Request body for `POST /games` (src/app/schemas/game.py, `GameCreate`). -/
structure GameCreate where
  name : String
  description : Option String
  game_composition : String
  min_number_of_teams : Option Nat
  max_number_of_teams : Option Nat
  min_number_of_players : Nat
  max_number_of_players : Option Nat
  min_number_of_players_per_teams : Option Nat
  max_number_of_players_per_teams : Option Nat
  thumbnail : Option String
deriving DecidableEq, Repr

/-- Request body for `PUT /games/{id}` (src/app/schemas/game.py,
`GameUpdate`); `none` means the field was absent from the request. -/
structure GameUpdate where
  name : Option String
  description : Option (Option String)
  game_composition : Option String
  min_number_of_teams : Option (Option Nat)
  max_number_of_teams : Option (Option Nat)
  min_number_of_players : Option Nat
  max_number_of_players : Option (Option Nat)
  min_number_of_players_per_teams : Option (Option Nat)
  max_number_of_players_per_teams : Option (Option Nat)
  thumbnail : Option (Option String)
  active : Option Bool
deriving DecidableEq, Repr

/-- `create_game`: insert a new row with defaults. -/
def create_game (db : DB) (game : GameCreate) (now : Nat) : Game × DB :=
  let db_game : Game :=
    { id := nextId (db.games.map (·.id))
      name := game.name
      description := game.description
      game_composition := game.game_composition
      min_number_of_teams := game.min_number_of_teams
      max_number_of_teams := game.max_number_of_teams
      min_number_of_players := game.min_number_of_players
      max_number_of_players := game.max_number_of_players
      min_number_of_players_per_teams := game.min_number_of_players_per_teams
      max_number_of_players_per_teams := game.max_number_of_players_per_teams
      thumbnail := game.thumbnail
      active := true
      created_at := now
      updated_at := none }
  (db_game, { db with games := db.games ++ [db_game] })

/-- `get_games`: active games, offset by `skip`, capped at `limit`. -/
def get_games (db : DB) (skip : Nat := 0) (limit : Nat := 100) : List Game :=
  ((db.games.filter (·.active)).drop skip).take limit

/-- `get_game`: first row with this id that is active, else `None`. -/
def get_game (db : DB) (game_id : Nat) : Option Game :=
  db.games.find? (fun g => g.id == game_id && g.active)

/-- The `setattr` loop of `update_game`: apply exactly the fields present in
the request (`model_dump(exclude_unset=True)`). -/
def applyGameUpdate (u : GameUpdate) (g : Game) : Game :=
  { g with
    name := u.name.getD g.name
    description := u.description.getD g.description
    game_composition := u.game_composition.getD g.game_composition
    min_number_of_teams := u.min_number_of_teams.getD g.min_number_of_teams
    max_number_of_teams := u.max_number_of_teams.getD g.max_number_of_teams
    min_number_of_players :=
      u.min_number_of_players.getD g.min_number_of_players
    max_number_of_players :=
      u.max_number_of_players.getD g.max_number_of_players
    min_number_of_players_per_teams :=
      u.min_number_of_players_per_teams.getD g.min_number_of_players_per_teams
    max_number_of_players_per_teams :=
      u.max_number_of_players_per_teams.getD g.max_number_of_players_per_teams
    thumbnail := u.thumbnail.getD g.thumbnail
    active := u.active.getD g.active }

/-- `update_game`: look up the active row, apply the provided fields, commit
(the `onupdate` column default stamps `updated_at`). -/
def update_game (db : DB) (game_id : Nat) (game : GameUpdate) (now : Nat) :
    Option Game × DB :=
  match db.games.find? (fun g => g.id == game_id && g.active) with
  | none => (none, db)
  | some db_game =>
    let g2 := { applyGameUpdate game db_game with updated_at := some now }
    let games2 :=
      replaceFirst (fun g => g.id == game_id && g.active) (fun _ => g2) db.games
    (some g2, { db with games := games2 })

/-- `deactivate_game`: flip `active` to false on the active row, else `None`. -/
def deactivate_game (db : DB) (game_id : Nat) (now : Nat) :
    Option Game × DB :=
  match db.games.find? (fun g => g.id == game_id && g.active) with
  | none => (none, db)
  | some db_game =>
    let g2 := { db_game with active := false, updated_at := some now }
    let games2 :=
      replaceFirst (fun g => g.id == game_id && g.active) (fun _ => g2) db.games
    (some g2, { db with games := games2 })

/-! ### Account CRUD (src/app/crud/account.py) -/

/-- Request body for `POST /accounts` (src/app/schemas/account.py,
`AccountCreate`); `password` is the plaintext field. -/
structure AccountCreate where
  email_address : String
  first_name : String
  last_name : String
  password : String
  club_id : Nat
deriving DecidableEq, Repr

/-- Request body for `PUT /accounts/{id}` (src/app/schemas/account.py,
`AccountUpdate`): only email, names and club, all optional; there is no
`active` field here.  `none` means the field was absent from the request. -/
structure AccountUpdate where
  email_address : Option String
  first_name : Option String
  last_name : Option String
  club_id : Option Nat
deriving DecidableEq, Repr

/-- Result of `create_account`: the Python raises
`ValueError("Email already registered")` on a duplicate email, otherwise
returns the inserted row. -/
inductive CreateAccountResult where
  | duplicateEmail
  | created (a : Account)
deriving DecidableEq, Repr

/-- Result of `update_account`: `None` for a missing/inactive id, a raised
`ValueError("Email already registered")` for an email conflict, otherwise
the updated row. -/
inductive UpdateAccountResult where
  | notFound
  | duplicateEmail
  | updated (a : Account)
deriving DecidableEq, Repr

/-- `get_accounts`: active accounts, offset by `skip`, capped at `limit`. -/
def get_accounts (db : DB) (skip : Nat := 0) (limit : Nat := 100) :
    List Account :=
  ((db.accounts.filter (·.active)).drop skip).take limit

/-- `get_account`: first row with this id that is active, else `None`. -/
def get_account (db : DB) (account_id : Nat) : Option Account :=
  db.accounts.find? (fun a => a.id == account_id && a.active)

/-- `get_account_by_email`: first row with this email — note: no `active`
filter here, deliberately matching the source. -/
def get_account_by_email (db : DB) (email : String) : Option Account :=
  db.accounts.find? (fun a => a.email_address == email)

/-- `get_club_accounts`: active accounts of one club, paginated. -/
def get_club_accounts (db : DB) (club_id : Nat) (skip : Nat := 0)
    (limit : Nat := 100) : List Account :=
  ((db.accounts.filter (fun a => a.club_id == club_id && a.active)).drop
    skip).take limit

/-- `create_account`: raise on duplicate email (checked through
`get_account_by_email`, i.e. ignoring the `active` flag), else hash the
password and insert.  `hashed` is the digest returned by the external
`pwd_context.hash(account.password)` call. -/
def create_account (db : DB) (account : AccountCreate) (hashed : String)
    (now : Nat) : CreateAccountResult × DB :=
  match get_account_by_email db account.email_address with
  | some _ => (.duplicateEmail, db)
  | none =>
    let db_account : Account :=
      { id := nextId (db.accounts.map (·.id))
        email_address := account.email_address
        first_name := account.first_name
        last_name := account.last_name
        password_digest := hashed
        club_id := account.club_id
        active := true
        email_verified := false
        last_login_at := none
        created_at := now
        updated_at := none }
    (.created db_account, { db with accounts := db.accounts ++ [db_account] })

/-- The email-conflict guard inside `update_account`: fires when the request
sets an email different from the row's current one and some other account
(any `active` state) already holds it. -/
def account_email_conflict (db : DB) (db_account : Account)
    (u : AccountUpdate) : Bool :=
  match u.email_address with
  | none => false
  | some e =>
    if e == db_account.email_address then false
    else
      match get_account_by_email db e with
      | none => false
      | some existing => existing.id != db_account.id

/-- The `setattr` loop of `update_account`: apply exactly the fields present
in the request (`model_dump(exclude_unset=True)`). -/
def applyAccountUpdate (u : AccountUpdate) (a : Account) : Account :=
  { a with
    email_address := u.email_address.getD a.email_address
    first_name := u.first_name.getD a.first_name
    last_name := u.last_name.getD a.last_name
    club_id := u.club_id.getD a.club_id }

/-- `update_account`: look up the active row, check the email conflict,
apply the provided fields and stamp `updated_at = utcnow()`. -/
def update_account (db : DB) (account_id : Nat) (u : AccountUpdate)
    (now : Nat) : UpdateAccountResult × DB :=
  match get_account db account_id with
  | none => (.notFound, db)
  | some db_account =>
    if account_email_conflict db db_account u then (.duplicateEmail, db)
    else
      let a2 := { applyAccountUpdate u db_account with updated_at := some now }
      let accounts2 :=
        replaceFirst (fun a => a.id == account_id && a.active) (fun _ => a2)
          db.accounts
      (.updated a2, { db with accounts := accounts2 })

/-- `update_account_password`: look up the active row; `verified` is the
outcome of the external `verify_password(current_password, digest)` call and
`new_hashed` the digest of the new password; on mismatch return `None`
without touching the store. -/
def update_account_password (db : DB) (account_id : Nat) (verified : Bool)
    (new_hashed : String) : Option Account × DB :=
  match get_account db account_id with
  | none => (none, db)
  | some db_account =>
    if !verified then (none, db)
    else
      let a2 := { db_account with password_digest := new_hashed }
      let accounts2 :=
        replaceFirst (fun a => a.id == account_id && a.active) (fun _ => a2)
          db.accounts
      (some a2, { db with accounts := accounts2 })

/-- `authenticate_account`: look up by email (no `active` filter); `verified`
is the outcome of the external password check; on success stamp
`last_login_at` and return the row. -/
def authenticate_account (db : DB) (email_address : String) (verified : Bool)
    (now : Nat) : Option Account × DB :=
  match get_account_by_email db email_address with
  | none => (none, db)
  | some account =>
    if !verified then (none, db)
    else
      let a2 := { account with last_login_at := some now }
      let accounts2 :=
        replaceFirst (fun a => a.email_address == email_address) (fun _ => a2)
          db.accounts
      (some a2, { db with accounts := accounts2 })

/-- `deactivate_account`: flip `active` to false on the active row, else
`None` (commit stamps `updated_at` via the `onupdate` default). -/
def deactivate_account (db : DB) (account_id : Nat) (now : Nat) :
    Option Account × DB :=
  match get_account db account_id with
  | none => (none, db)
  | some db_account =>
    let a2 := { db_account with active := false, updated_at := some now }
    let accounts2 :=
      replaceFirst (fun a => a.id == account_id && a.active) (fun _ => a2)
        db.accounts
    (some a2, { db with accounts := accounts2 })

/-! ### Club↔game association (src/app/api/v1/endpoints/club_games.py)

The ORM exposes the `club_games` join table as the live collection
`club.games`: one `Game` row object per association row of this club, in
association-row order.  Membership of a row object in the collection is,
through the ORM identity map, exactly the existence of an association row
for the pair of ids. -/

/-- The ORM collection `club.games`: for each `club_games` row of this club,
the `games` row it points at. -/
def club_games_of (db : DB) (club_id : Nat) : List Game :=
  (db.club_games.filter (fun p => p.1 == club_id)).filterMap
    (fun p => db.games.find? (fun g => g.id == p.2))

/-- `game in club.games`: an association row for this pair exists. -/
def game_in_club (db : DB) (club_id game_id : Nat) : Bool :=
  db.club_games.any (fun p => p.1 == club_id && p.2 == game_id)

/-- `GET /clubs/{club_id}/games` (`get_club_games`): 404 if the club is
missing or inactive, else the club's games filtered to active ones. -/
def get_club_games (db : DB) (club_id : Nat) :
    Except HTTPException (List Game) :=
  match get_club db club_id with
  | none => .error ⟨404, "Club not found"⟩
  | some _ => .ok ((club_games_of db club_id).filter (·.active))

/-- `POST /clubs/{club_id}/games/{game_id}` (`add_game_to_club`): 404 for a
missing/inactive club or game, 400 if already associated, else append the
association row (`club.games.append(game)`). -/
def add_game_to_club (db : DB) (club_id game_id : Nat) :
    Except HTTPException DB :=
  match get_club db club_id with
  | none => .error ⟨404, "Club not found"⟩
  | some _ =>
    match get_game db game_id with
    | none => .error ⟨404, "Game not found"⟩
    | some _ =>
      if game_in_club db club_id game_id then
        .error ⟨400, "Game already associated with this club"⟩
      else
        .ok { db with club_games := db.club_games ++ [(club_id, game_id)] }

/-- `DELETE /clubs/{club_id}/games/{game_id}` (`remove_game_from_club`):
404 for a missing/inactive club or game, 404 if not associated, else remove
the association row (`club.games.remove(game)` deletes the first matching
row). -/
def remove_game_from_club (db : DB) (club_id game_id : Nat) :
    Except HTTPException DB :=
  match get_club db club_id with
  | none => .error ⟨404, "Club not found"⟩
  | some _ =>
    match get_game db game_id with
    | none => .error ⟨404, "Game not found"⟩
    | some _ =>
      if !game_in_club db club_id game_id then
        .error ⟨404, "Game not associated with this club"⟩
      else
        let pairs2 :=
          db.club_games.eraseP (fun p => p.1 == club_id && p.2 == game_id)
        .ok { db with club_games := pairs2 }

/-- `GET /clubs/{club_id}/games/{game_id}` (`get_club_game`): 404 if the club
is missing/inactive; else scan `club.games` for an active row with this id,
404 when the loop finds none. -/
def get_club_game (db : DB) (club_id game_id : Nat) :
    Except HTTPException Game :=
  match get_club db club_id with
  | none => .error ⟨404, "Club not found"⟩
  | some _ =>
    match (club_games_of db club_id).find?
        (fun g => g.id == game_id && g.active) with
    | some g => .ok g
    | none =>
      .error ⟨404, "Game not associated with this club or game not found"⟩

/-! ### Authentication dependencies (src/app/auth.py)

`verify_token` is an external JWT signature/expiry check; its outcome is
modelled as the optional decoded payload handed to the dependency.  A
payload is a claims dictionary whose `"sub"` entry may be absent. -/

/-- Decoded JWT claims: the optional `sub` (account id) entry. -/
structure TokenPayload where
  sub : Option Nat
deriving DecidableEq, Repr

/-- The 401 raised throughout `get_current_account`. -/
def credentials_exception : HTTPException :=
  ⟨401, "Could not validate credentials"⟩

/-- `get_current_account`: 401 if the token failed verification
(`payload = none`), has no subject, or the subject does not resolve through
`get_account` (which filters on `active`); else the account. -/
def get_current_account (db : DB) (payload : Option TokenPayload) :
    Except HTTPException Account :=
  match payload with
  | none => .error credentials_exception
  | some p =>
    match p.sub with
    | none => .error credentials_exception
    | some account_id =>
      match get_account db account_id with
      | none => .error credentials_exception
      | some account => .ok account

/-- `get_current_active_account`: pass through `get_current_account`, then
400 if the resulting account is inactive. -/
def get_current_active_account (db : DB) (payload : Option TokenPayload) :
    Except HTTPException Account :=
  match get_current_account db payload with
  | .error e => .error e
  | .ok current_account =>
    if !current_account.active then
      .error ⟨400, "Inactive account"⟩
    else
      .ok current_account

/-! ### Entity endpoints needed by the claims
(src/app/api/v1/endpoints/accounts.py, clubs.py) -/

/-- `DELETE /accounts/{account_id}` (`delete_account_endpoint`): calls
`deactivate_account` and returns the success message — the source never
inspects the returned value, so there is no 404 branch. -/
def delete_account_endpoint (db : DB) (account_id : Nat) (now : Nat) :
    Except HTTPException (String × DB) :=
  let r := deactivate_account db account_id now
  .ok ("Account deactivated successfully", r.2)

/-- `DELETE /clubs/{club_id}` (`delete_club`): 404 when `deactivate_club`
signals not-found, else the success message. -/
def delete_club_endpoint (db : DB) (club_id : Nat) (now : Nat) :
    Except HTTPException (String × DB) :=
  match deactivate_club db club_id now with
  | (none, _) => .error ⟨404, "Club not found"⟩
  | (some _, db2) => .ok ("Club deactivated successfully", db2)

/-! ### The public mutating interface as a step system (for the
irreversibility claim).  Each constructor is one state-changing API call;
external inputs — request bodies, the clock, and the outcomes/digests of the
external bcrypt calls — are carried as constructor arguments. -/

/-- One state-changing call of the public API. -/
inductive Op where
  | createClub (input : ClubCreate) (now : Nat)
  | updateClub (club_id : Nat) (u : ClubUpdate) (now : Nat)
  | deleteClub (club_id : Nat) (now : Nat)
  | createGame (input : GameCreate) (now : Nat)
  | updateGame (game_id : Nat) (u : GameUpdate) (now : Nat)
  | deleteGame (game_id : Nat) (now : Nat)
  | createAccount (input : AccountCreate) (hashed : String) (now : Nat)
  | updateAccount (account_id : Nat) (u : AccountUpdate) (now : Nat)
  | updateAccountPassword (account_id : Nat) (verified : Bool)
      (new_hashed : String)
  | deleteAccount (account_id : Nat) (now : Nat)
  | login (email_address : String) (verified : Bool) (now : Nat)
  | addClubGame (club_id game_id : Nat)
  | removeClubGame (club_id game_id : Nat)
deriving DecidableEq, Repr

/-- Effect of one API call on the store (an errored call leaves it as the
operation's own failure path leaves it). -/
def applyOp (db : DB) : Op → DB
  | .createClub input now => (create_club db input now).2
  | .updateClub club_id u now => (update_club db club_id u now).2
  | .deleteClub club_id now => (deactivate_club db club_id now).2
  | .createGame input now => (create_game db input now).2
  | .updateGame game_id u now => (update_game db game_id u now).2
  | .deleteGame game_id now => (deactivate_game db game_id now).2
  | .createAccount input hashed now => (create_account db input hashed now).2
  | .updateAccount account_id u now => (update_account db account_id u now).2
  | .updateAccountPassword account_id verified new_hashed =>
      (update_account_password db account_id verified new_hashed).2
  | .deleteAccount account_id now => (deactivate_account db account_id now).2
  | .login email_address verified now =>
      (authenticate_account db email_address verified now).2
  | .addClubGame club_id game_id =>
      match add_game_to_club db club_id game_id with
      | .ok db2 => db2
      | .error _ => db
  | .removeClubGame club_id game_id =>
      match remove_game_from_club db club_id game_id with
      | .ok db2 => db2
      | .error _ => db

/-- Run a sequence of API calls. -/
def runOps (db : DB) : List Op → DB
  | [] => db
  | op :: ops => runOps (applyOp db op) ops

/-- "Entity `i` of this table has been soft-deleted": a row with this id
exists and every row with this id is inactive. -/
def deactivatedIn (ids_active : List (Nat × Bool)) (i : Nat) : Prop :=
  (∃ b, (i, b) ∈ ids_active) ∧ ∀ b, (i, b) ∈ ids_active → b = false

/-- Soft-deleted club. -/
def clubDeactivated (db : DB) (i : Nat) : Prop :=
  deactivatedIn (db.clubs.map (fun c => (c.id, c.active))) i

/-- Soft-deleted game. -/
def gameDeactivated (db : DB) (i : Nat) : Prop :=
  deactivatedIn (db.games.map (fun g => (g.id, g.active))) i

/-- Soft-deleted account. -/
def accountDeactivated (db : DB) (i : Nat) : Prop :=
  deactivatedIn (db.accounts.map (fun a => (a.id, a.active))) i

instance (l : List (Nat × Bool)) (i : Nat) : Decidable (deactivatedIn l i) :=
  inferInstanceAs (Decidable (_ ∧ _))

instance (db : DB) (i : Nat) : Decidable (clubDeactivated db i) :=
  inferInstanceAs (Decidable (deactivatedIn _ _))

instance (db : DB) (i : Nat) : Decidable (gameDeactivated db i) :=
  inferInstanceAs (Decidable (deactivatedIn _ _))

instance (db : DB) (i : Nat) : Decidable (accountDeactivated db i) :=
  inferInstanceAs (Decidable (deactivatedIn _ _))

/-! ### Generic list helpers -/

/-- A successful `find?` splits the list; `replaceFirst` with the same
predicate rewrites exactly the found element and nothing else. -/
theorem find?_replaceFirst_split (p : α → Bool) (f : α → α) (l : List α)
    (a : α) (h : l.find? p = some a) :
    ∃ l1 l2, l = l1 ++ a :: l2 ∧ (∀ x ∈ l1, p x = false) ∧
      replaceFirst p f l = l1 ++ f a :: l2 := by
  induction l with
  | nil => simp [List.find?] at h
  | cons x xs ih =>
    by_cases hp : p x
    · rw [List.find?_cons_of_pos _ hp] at h
      cases h
      exact ⟨[], xs, by simp, by simp, by simp [replaceFirst, hp]⟩
    · rw [List.find?_cons_of_neg _ hp] at h
      obtain ⟨l1, l2, hsplit, hnone, hrep⟩ := ih h
      refine ⟨x :: l1, l2, by simp [hsplit], ?_, ?_⟩
      · intro y hy
        rcases List.mem_cons.mp hy with rfl | hy
        · simpa using hp
        · exact hnone y hy
      · simp [replaceFirst, hp, hrep]

/-- Elements of `replaceFirst` come from the list or are the image of a
matched element. -/
theorem mem_replaceFirst (p : α → Bool) (f : α → α) (l : List α) (y : α)
    (h : y ∈ replaceFirst p f l) :
    y ∈ l ∨ ∃ x ∈ l, p x = true ∧ y = f x := by
  induction l with
  | nil => simp [replaceFirst] at h
  | cons x xs ih =>
    by_cases hp : p x
    · simp only [replaceFirst, if_pos hp] at h
      rcases List.mem_cons.mp h with rfl | h
      · exact Or.inr ⟨x, List.mem_cons_self .., hp, rfl⟩
      · exact Or.inl (List.mem_cons_of_mem _ h)
    · simp only [replaceFirst, if_neg hp] at h
      rcases List.mem_cons.mp h with rfl | h
      · exact Or.inl (List.mem_cons_self ..)
      · rcases ih h with h | ⟨z, hz, hpz, hyz⟩
        · exact Or.inl (List.mem_cons_of_mem _ h)
        · exact Or.inr ⟨z, List.mem_cons_of_mem _ hz, hpz, hyz⟩

/-- Every member of a list is at most its right fold by `max`. -/
theorem le_foldr_max (ns : List Nat) (n : Nat) (h : n ∈ ns) :
    n ≤ ns.foldr max 0 := by
  induction ns with
  | nil => cases h
  | cons x xs ih =>
    rcases List.mem_cons.mp h with rfl | h
    · exact Nat.le_max_left _ _
    · exact Nat.le_trans (ih h) (Nat.le_max_right _ _)

/-- The generated primary key differs from every id already in the table. -/
theorem nextId_fresh (ns : List Nat) (n : Nat) (h : n ∈ ns) :
    n ≠ nextId ns := by
  have := le_foldr_max ns n h
  unfold nextId
  omega

/-- Offset/limit pagination over any list: window length, concatenation of
consecutive windows, full coverage, and disjointness of consecutive
windows. -/
theorem paginate_spec (l : List α) (hnd : l.Nodup) (k m m' : Nat) :
    ((l.drop k).take m).length = min m (l.length - k)
    ∧ (l.drop k).take m ++ (l.drop (k + m)).take m' = (l.drop k).take (m + m')
    ∧ (l.drop 0).take l.length = l
    ∧ List.Disjoint ((l.drop k).take m) ((l.drop (k + m)).take m') := by
  refine ⟨by simp, ?_, by simp, ?_⟩
  · rw [List.take_add, ← List.drop_drop]
  · have hdk : (l.drop k).Nodup := hnd.sublist (List.drop_sublist ..)
    have hdisj : List.Disjoint ((l.drop k).take m) ((l.drop k).drop m) :=
      List.disjoint_take_drop hdk (Nat.le_refl m)
    intro a ha ha'
    rw [← List.drop_drop] at ha'
    exact hdisj ha (List.take_subset _ _ ha')

/-! ### Helpers on the soft-delete predicate -/

/-- Appending a row whose id is fresh preserves the soft-deleted state of
id `i`. -/
theorem deactivatedIn_append (idf : α → Nat) (actf : α → Bool) (l : List α)
    (x : α) (i : Nat) (hfresh : ∀ y ∈ l, idf y ≠ idf x)
    (h : deactivatedIn (l.map (fun y => (idf y, actf y))) i) :
    deactivatedIn ((l ++ [x]).map (fun y => (idf y, actf y))) i := by
  obtain ⟨⟨b, hb⟩, hall⟩ := h
  rcases List.mem_map.mp hb with ⟨y, hy, hye⟩
  injection hye with hy1 hy2
  constructor
  · refine ⟨b, ?_⟩
    rw [List.map_append]
    exact List.mem_append_left _ hb
  · intro b' hb'
    rw [List.map_append] at hb'
    rcases List.mem_append.mp hb' with hb' | hb'
    · exact hall b' hb'
    · simp only [List.map_cons, List.map_nil, List.mem_singleton] at hb'
      injection hb' with k1 k2
      exact absurd (hy1.trans k1) (hfresh y hy)

/-- Replacing one row by a row with the same id preserves the soft-deleted
state of id `i`, provided the replacement is inactive whenever its id is
`i`. -/
theorem deactivatedIn_replace (idf : α → Nat) (actf : α → Bool)
    (l1 l2 : List α) (a a2 : α) (i : Nat)
    (hid : idf a2 = idf a)
    (hsafe : idf a = i → actf a2 = false)
    (h : deactivatedIn ((l1 ++ a :: l2).map (fun y => (idf y, actf y))) i) :
    deactivatedIn ((l1 ++ a2 :: l2).map (fun y => (idf y, actf y))) i := by
  obtain ⟨⟨b, hb⟩, hall⟩ := h
  rw [List.map_append, List.map_cons] at hb
  constructor
  · rcases List.mem_append.mp hb with hb1 | hb1
    · refine ⟨b, ?_⟩
      rw [List.map_append, List.map_cons]
      exact List.mem_append_left _ hb1
    · rcases List.mem_cons.mp hb1 with heq | hb2
      · injection heq with h1 h2
        refine ⟨actf a2, ?_⟩
        have hpair : (i, actf a2) = (idf a2, actf a2) := by rw [hid, ← h1]
        rw [List.map_append, List.map_cons, hpair]
        exact List.mem_append_right _ (List.mem_cons_self ..)
      · refine ⟨b, ?_⟩
        rw [List.map_append, List.map_cons]
        exact List.mem_append_right _ (List.mem_cons_of_mem _ hb2)
  · intro b' hb'
    rw [List.map_append, List.map_cons] at hb'
    rcases List.mem_append.mp hb' with hb1 | hb1
    · refine hall b' ?_
      rw [List.map_append, List.map_cons]
      exact List.mem_append_left _ hb1
    · rcases List.mem_cons.mp hb1 with heq | hb2
      · injection heq with h1 h2
        rw [h2]
        exact hsafe (by rw [← hid, ← h1])
      · refine hall b' ?_
        rw [List.map_append, List.map_cons]
        exact List.mem_append_right _ (List.mem_cons_of_mem _ hb2)

/-- A soft-deleted id cannot belong to an active row of the table. -/
theorem not_deactivated_of_active (idf : α → Nat) (actf : α → Bool)
    (l : List α) (a : α) (i : Nat) (ha : a ∈ l) (hact : actf a = true)
    (h : deactivatedIn (l.map (fun y => (idf y, actf y))) i) :
    idf a ≠ i := by
  intro hia
  have : (i, actf a) ∈ l.map (fun y => (idf y, actf y)) :=
    List.mem_map.mpr ⟨a, ha, by rw [hia]⟩
  have := h.2 _ this
  rw [hact] at this
  cases this

/-! ### Concrete sample store used by witnesses and counterexamples -/

/-- Sample active club. -/
def clubA : Club :=
  { id := 1, nickname := "Acme", creator := "alice", thumbnail_url := none
    active := true, created_at := 0, updated_at := none }

/-- Sample active game. -/
def gameA : Game :=
  { id := 1, name := "Chess", description := none
    game_composition := "player", min_number_of_teams := none
    max_number_of_teams := none, min_number_of_players := 2
    max_number_of_players := none, min_number_of_players_per_teams := none
    max_number_of_players_per_teams := none, thumbnail := none
    active := true, created_at := 0, updated_at := none }

/-- Sample active account. -/
def acctA : Account :=
  { id := 1, email_address := "a@x.com", first_name := "Ana"
    last_name := "Ruiz", password_digest := "h1", club_id := 1
    active := true, email_verified := false, last_login_at := none
    created_at := 0, updated_at := none }

/-- Second sample active account, distinct email. -/
def acctB : Account :=
  { id := 2, email_address := "b@x.com", first_name := "Bea"
    last_name := "Sol", password_digest := "h2", club_id := 1
    active := true, email_verified := false, last_login_at := none
    created_at := 0, updated_at := none }

/-- Sample soft-deleted account. -/
def acctC : Account :=
  { id := 3, email_address := "c@x.com", first_name := "Cal"
    last_name := "Paz", password_digest := "h3", club_id := 1
    active := false, email_verified := false, last_login_at := none
    created_at := 0, updated_at := none }

/-- Sample store: one active club, one active game, two active accounts and
one soft-deleted account, no associations. -/
def dbMain : DB := ⟨[clubA], [gameA], [acctA, acctB, acctC], []⟩

/-! ### C1 — DELETE /accounts/{account_id} and the not-found signal -/

/-- C1, counterexample.  The claim says the endpoint maps the domain
layer's not-found signal to a 404.  At account id 99 — which does not
resolve to an active account of `dbMain` — `deactivate_account` signals
not-found, yet the endpoint returns the 200 success message, not a 404. -/
theorem c1_delete_account_counterexample :
    (deactivate_account dbMain 99 5).1 = none
    ∧ delete_account_endpoint dbMain 99 5 =
        .ok ("Account deactivated successfully", dbMain) := by
  constructor <;> rfl

/-- C1, amended.  `delete_account_endpoint` never inspects the result of
`deactivate_account`: for every account id — resolving or not — it answers
with the 200 success message and the store `deactivate_account` left
behind; when the domain layer signals not-found the store is unchanged and
the response is still the success message. -/
theorem c1_delete_account_ignores_not_found (db : DB)
    (account_id now : Nat) :
    delete_account_endpoint db account_id now =
      .ok ("Account deactivated successfully",
        (deactivate_account db account_id now).2)
    ∧ ((deactivate_account db account_id now).1 = none →
        (deactivate_account db account_id now).2 = db) := by
  constructor
  · rfl
  · intro h
    unfold deactivate_account at h ⊢
    cases hf : get_account db account_id with
    | none => simp [hf]
    | some a => rw [hf] at h; simp at h

/-- C1, witness for the amended theorem at a concrete missing id. -/
theorem c1_delete_account_ignores_not_found_witness :
    (deactivate_account dbMain 99 5).2 = dbMain :=
  (c1_delete_account_ignores_not_found dbMain 99 5).2 (by rfl)

/-! ### C2 — inactive account on the authenticated path -/

/-- C2, counterexample.  The claim says a valid token whose subject is an
existing but inactive account resolves to the administratively-disabled
400 error.  Account 3 of `dbMain` exists and is inactive, yet
`get_current_active_account` answers the 401 credentials failure — the
same signal as for a missing account — and not the 400. -/
theorem c2_inactive_account_counterexample :
    (∃ a ∈ dbMain.accounts, a.id = 3 ∧ a.active = false)
    ∧ get_current_active_account dbMain (some ⟨some 3⟩) =
        .error credentials_exception
    ∧ credentials_exception.status = 401
    ∧ get_current_active_account dbMain (some ⟨some 3⟩) ≠
        .error ⟨400, "Inactive account"⟩ := by
  refine ⟨⟨acctC, by decide, by decide, by decide⟩, by rfl, by rfl, by decide⟩

/-- C2, amended.  A valid token whose subject is an account that exists but
is inactive resolves to the 401 authentication failure, indistinguishable
from a missing account, because `get_current_account` loads the subject
through the `active`-filtered `get_account`; consequently every account
`get_current_account` hands on is active, and the 400
administratively-disabled branch of `get_current_active_account` can never
fire — its only errors are 401 credentials failures. -/
theorem c2_inactive_account_is_401 (db : DB)
    (payload : Option TokenPayload) :
    (∀ account_id, payload = some ⟨some account_id⟩ →
      (∀ a ∈ db.accounts, a.id = account_id → a.active = false) →
      get_current_active_account db payload = .error credentials_exception)
    ∧ (∀ a, get_current_account db payload = .ok a → a.active = true)
    ∧ (∀ e, get_current_active_account db payload = .error e →
        e = credentials_exception) := by
  refine ⟨?_, ?_, ?_⟩
  · intro account_id hp hall
    subst hp
    have hnone : get_account db account_id = none := by
      unfold get_account
      rw [List.find?_eq_none]
      intro a ha hpa
      simp only [Bool.and_eq_true, beq_iff_eq] at hpa
      have h2 := hall a ha hpa.1
      rw [h2] at hpa
      exact Bool.false_ne_true hpa.2
    simp [get_current_active_account, get_current_account, hnone]
  · intro a h
    rcases payload with _ | ⟨_ | aid⟩
    · simp [get_current_account] at h
    · simp [get_current_account] at h
    · simp only [get_current_account] at h
      cases hf : get_account db aid with
      | none => rw [hf] at h; cases h
      | some a2 =>
        rw [hf] at h
        cases h
        have hp := List.find?_some hf
        simp only [Bool.and_eq_true, beq_iff_eq] at hp
        exact hp.2
  · intro e h
    rcases payload with _ | ⟨_ | aid⟩
    · exact (Except.error.inj h).symm
    · exact (Except.error.inj h).symm
    · simp only [get_current_active_account, get_current_account] at h
      cases hf : get_account db aid with
      | none =>
        rw [hf] at h
        exact (Except.error.inj h).symm
      | some a2 =>
        rw [hf] at h
        have hp := List.find?_some hf
        simp only [Bool.and_eq_true, beq_iff_eq] at hp
        simp [hp.2] at h

/-- C2, witness for the amended theorem: the inactive account 3 of
`dbMain` resolves to the 401 credentials failure. -/
theorem c2_inactive_account_is_401_witness :
    get_current_active_account dbMain (some ⟨some 3⟩) =
      .error credentials_exception :=
  (c2_inactive_account_is_401 dbMain (some ⟨some 3⟩)).1 3 rfl (by decide)

/-! ### C3 — soft-deleted entities are invisible to reads -/

/-- C3.  Every entity returned by a lookup-by-id, any page of a list, or
the club→games traversal is active; equivalently, an entity whose `active`
flag is false is never returned by any of these operations, for every
skip/limit and every club. -/
theorem c3_soft_deleted_never_returned (db : DB) :
    (∀ club_id c, get_club db club_id = some c → c.active = true)
    ∧ (∀ game_id g, get_game db game_id = some g → g.active = true)
    ∧ (∀ account_id a, get_account db account_id = some a →
        a.active = true)
    ∧ (∀ skip limit c, c ∈ get_clubs db skip limit → c.active = true)
    ∧ (∀ skip limit g, g ∈ get_games db skip limit → g.active = true)
    ∧ (∀ skip limit a, a ∈ get_accounts db skip limit → a.active = true)
    ∧ (∀ club_id skip limit a,
        a ∈ get_club_accounts db club_id skip limit → a.active = true)
    ∧ (∀ club_id gs, get_club_games db club_id = .ok gs →
        ∀ g ∈ gs, g.active = true) := by
  refine ⟨?_, ?_, ?_, ?_, ?_, ?_, ?_, ?_⟩
  · intro club_id c h
    have hp := List.find?_some h
    simp only [Bool.and_eq_true, beq_iff_eq] at hp
    exact hp.2
  · intro game_id g h
    have hp := List.find?_some h
    simp only [Bool.and_eq_true, beq_iff_eq] at hp
    exact hp.2
  · intro account_id a h
    have hp := List.find?_some h
    simp only [Bool.and_eq_true, beq_iff_eq] at hp
    exact hp.2
  · intro skip limit c h
    have hc := List.drop_subset _ _ (List.take_subset _ _ h)
    exact List.of_mem_filter hc
  · intro skip limit g h
    have hg := List.drop_subset _ _ (List.take_subset _ _ h)
    exact List.of_mem_filter hg
  · intro skip limit a h
    have ha := List.drop_subset _ _ (List.take_subset _ _ h)
    exact List.of_mem_filter ha
  · intro club_id skip limit a h
    have ha := List.drop_subset _ _ (List.take_subset _ _ h)
    have hp := List.of_mem_filter ha
    simp only [Bool.and_eq_true, beq_iff_eq] at hp
    exact hp.2
  · intro club_id gs h g hg
    unfold get_club_games at h
    cases hc : get_club db club_id with
    | none => rw [hc] at h; cases h
    | some c =>
      rw [hc] at h
      cases h
      exact List.of_mem_filter hg

/-- C3, witness: concrete reads of `dbMain` only surface active rows, and
the soft-deleted account 3 is invisible to its lookup. -/
theorem c3_soft_deleted_never_returned_witness :
    acctA.active = true ∧ clubA.active = true := by
  constructor
  · exact (c3_soft_deleted_never_returned dbMain).2.2.1 1 acctA (by decide)
  · exact (c3_soft_deleted_never_returned dbMain).1 1 clubA (by decide)

/-! ### C4 — duplicate-email check at account creation -/

/-- C4.  `create_account` fails with the duplicate-email condition exactly
when some stored account — active or not — already carries the same
`email_address`; and on failure the store is returned unchanged (the
Python raises before any insert). -/
theorem c4_create_account_duplicate_email (db : DB)
    (input : AccountCreate) (hashed : String) (now : Nat) :
    ((create_account db input hashed now).1 = .duplicateEmail ↔
      ∃ a ∈ db.accounts, a.email_address = input.email_address)
    ∧ ((create_account db input hashed now).1 = .duplicateEmail →
        (create_account db input hashed now).2 = db) := by
  constructor
  · constructor
    · intro h
      unfold create_account at h
      cases hf : get_account_by_email db input.email_address with
      | none => rw [hf] at h; cases h
      | some a =>
        have ha := List.mem_of_find?_eq_some hf
        have hp := List.find?_some hf
        simp only [beq_iff_eq] at hp
        exact ⟨a, ha, hp⟩
    · intro ⟨a, ha, he⟩
      unfold create_account
      cases hf : get_account_by_email db input.email_address with
      | none =>
        unfold get_account_by_email at hf
        rw [List.find?_eq_none] at hf
        exact absurd (by simpa using he) (hf a ha)
      | some a2 => rfl
  · intro h
    unfold create_account at h ⊢
    cases hf : get_account_by_email db input.email_address with
    | none => rw [hf] at h; cases h
    | some a2 => rfl

/-- C4, witness: creating a second account with the email of the existing
(even soft-deleted) account `c@x.com` fails and leaves `dbMain`
unchanged. -/
theorem c4_create_account_duplicate_email_witness :
    (create_account dbMain
      ⟨"c@x.com", "Dan", "Oro", "longenough1", 1⟩ "hX" 9).2 = dbMain :=
  (c4_create_account_duplicate_email dbMain
      ⟨"c@x.com", "Dan", "Oro", "longenough1", 1⟩ "hX" 9).2 (by decide)

/-! ### C8 — offset/limit pagination -/

/-- C8.  For a store whose clubs (resp. games) are all active and have
distinct primary keys, `list(skip = k, limit = m)` returns exactly
`min m (N - k)` entities (`Nat` subtraction is `max 0` of the
difference), consecutive non-overlapping windows concatenate to the next
window and are disjoint, and the full window returns all `N` entities in
insertion order. -/
theorem c8_pagination (db : DB) (k m m' : Nat)
    (hca : ∀ c ∈ db.clubs, c.active = true)
    (hcn : (db.clubs.map (·.id)).Nodup)
    (hga : ∀ g ∈ db.games, g.active = true)
    (hgn : (db.games.map (·.id)).Nodup) :
    ((get_clubs db k m).length = min m (db.clubs.length - k)
      ∧ get_clubs db k m ++ get_clubs db (k + m) m' =
          get_clubs db k (m + m')
      ∧ get_clubs db 0 db.clubs.length = db.clubs
      ∧ List.Disjoint (get_clubs db k m) (get_clubs db (k + m) m'))
    ∧ ((get_games db k m).length = min m (db.games.length - k)
      ∧ get_games db k m ++ get_games db (k + m) m' =
          get_games db k (m + m')
      ∧ get_games db 0 db.games.length = db.games
      ∧ List.Disjoint (get_games db k m) (get_games db (k + m) m')) := by
  have hcf : db.clubs.filter (·.active) = db.clubs :=
    List.filter_eq_self.mpr hca
  have hgf : db.games.filter (·.active) = db.games :=
    List.filter_eq_self.mpr hga
  constructor
  · have hs := paginate_spec db.clubs hcn.of_map k m m'
    unfold get_clubs
    rw [hcf]
    exact ⟨hs.1, hs.2.1, by simp [hs.2.2.1], hs.2.2.2⟩
  · have hs := paginate_spec db.games hgn.of_map k m m'
    unfold get_games
    rw [hgf]
    exact ⟨hs.1, hs.2.1, by simp [hs.2.2.1], hs.2.2.2⟩

/-- C8, witness at the concrete store (one active club, one active game):
a window of size 1 starting at 0 returns the single entity. -/
theorem c8_pagination_witness :
    (get_clubs dbMain 0 1).length = min 1 (dbMain.clubs.length - 0) ∧
    (get_games dbMain 0 1).length = min 1 (dbMain.games.length - 0) :=
  ⟨(c8_pagination dbMain 0 1 1 (by decide) (by decide) (by decide)
      (by decide)).1.1,
   (c8_pagination dbMain 0 1 1 (by decide) (by decide) (by decide)
      (by decide)).2.1⟩

/-! ### C6 — association add/remove/check protocol -/

/-- C6.  For an active club and an active game whose pair is not yet
associated: the first add succeeds (appending the association row), adding
the same pair again answers the 400 conflict, removing the pair while it is
unassociated answers 404, removing it after the successful add succeeds and
restores the original store, and a check-one get for the unassociated pair
answers 404. -/
theorem c6_association_uniqueness (db : DB) (club_id game_id : Nat)
    (c : Club) (g : Game)
    (hc : get_club db club_id = some c)
    (hg : get_game db game_id = some g)
    (hnot : game_in_club db club_id game_id = false) :
    add_game_to_club db club_id game_id =
      .ok { db with club_games := db.club_games ++ [(club_id, game_id)] }
    ∧ add_game_to_club
        { db with club_games := db.club_games ++ [(club_id, game_id)] }
        club_id game_id =
      .error ⟨400, "Game already associated with this club"⟩
    ∧ remove_game_from_club db club_id game_id =
      .error ⟨404, "Game not associated with this club"⟩
    ∧ remove_game_from_club
        { db with club_games := db.club_games ++ [(club_id, game_id)] }
        club_id game_id = .ok db
    ∧ get_club_game db club_id game_id =
      .error ⟨404, "Game not associated with this club or game not found"⟩ := by
  set db1 : DB :=
    { db with club_games := db.club_games ++ [(club_id, game_id)] } with hdb1
  have hc1 : get_club db1 club_id = some c := hc
  have hg1 : get_game db1 game_id = some g := hg
  have hpairs : ∀ p ∈ db.club_games,
      ¬ (p.1 == club_id && p.2 == game_id) = true := by
    intro p hp hcontra
    have : db.club_games.any (fun q => q.1 == club_id && q.2 == game_id) =
        true := List.any_eq_true.mpr ⟨p, hp, hcontra⟩
    rw [game_in_club] at hnot
    rw [hnot] at this
    cases this
  have hin1 : game_in_club db1 club_id game_id = true := by
    unfold game_in_club
    rw [hdb1]
    simp [List.any_append]
  refine ⟨?_, ?_, ?_, ?_, ?_⟩
  · unfold add_game_to_club
    rw [hc, hg, hnot]
    rfl
  · unfold add_game_to_club
    rw [hc1, hg1, hin1]
    rfl
  · unfold remove_game_from_club
    rw [hc, hg, hnot]
    rfl
  · unfold remove_game_from_club
    rw [hc1, hg1, hin1]
    have herase :
        (db.club_games ++ [(club_id, game_id)]).eraseP
          (fun p => p.1 == club_id && p.2 == game_id) = db.club_games := by
      rw [List.eraseP_append_right _ hpairs]
      simp [List.eraseP_cons]
    simp only [hdb1, herase]
    rfl
  · unfold get_club_game
    rw [hc]
    have hfind : (club_games_of db club_id).find?
        (fun x => x.id == game_id && x.active) = none := by
      rw [List.find?_eq_none]
      intro x hx hpx
      simp only [Bool.and_eq_true, beq_iff_eq] at hpx
      unfold club_games_of at hx
      rcases List.mem_filterMap.mp hx with ⟨p, hp, hfp⟩
      have hmemfil := List.mem_filter.mp hp
      have hxid := List.find?_some hfp
      simp only [beq_iff_eq] at hxid
      have hp2 : p.2 = game_id := by rw [← hxid]; exact hpx.1
      exact hpairs p hmemfil.1 (by simp [hmemfil.2, hp2])
    rw [hfind]

/-- C6, witness: the protocol holds concretely at `dbMain`, club 1 and
game 1. -/
theorem c6_association_uniqueness_witness :
    add_game_to_club dbMain 1 1 =
      .ok { dbMain with club_games := dbMain.club_games ++ [(1, 1)] } :=
  (c6_association_uniqueness dbMain 1 1 clubA gameA (by decide) (by decide)
    (by decide)).1

/-! ### C7 — deactivating a game and club listings -/

/-- With distinct primary keys, the row found by the id-and-active filter
is also the row found by the id filter alone. -/
theorem find?_id_of_find?_active (l : List Game) (gid : Nat) (g : Game)
    (hnd : (l.map (·.id)).Nodup)
    (hfind : l.find? (fun x => x.id == gid && x.active) = some g) :
    l.find? (fun x => x.id == gid) = some g := by
  induction l with
  | nil => simp [List.find?] at hfind
  | cons x xs ih =>
    rw [List.map_cons, List.nodup_cons] at hnd
    by_cases hid : (x.id == gid) = true
    · by_cases hact : x.active = true
      · rw [List.find?_cons_of_pos (p := fun x : Game => x.id == gid && x.active) _
            (by simp [hid, hact])] at hfind
        cases hfind
        exact List.find?_cons_of_pos (p := fun x : Game => x.id == gid) _ hid
      · rw [List.find?_cons_of_neg (p := fun x : Game => x.id == gid && x.active) _
            (by simp [hact])] at hfind
        have hg := List.mem_of_find?_eq_some hfind
        have hgp := List.find?_some hfind
        simp only [Bool.and_eq_true, beq_iff_eq] at hgp hid
        exact absurd (List.mem_map.mpr ⟨g, hg, hgp.1⟩) (hid ▸ hnd.1)
    · rw [List.find?_cons_of_neg (p := fun x : Game => x.id == gid && x.active) _
          (by simp [hid])] at hfind
      rw [List.find?_cons_of_neg (p := fun x : Game => x.id == gid) _ hid]
      exact ih hnd.2 hfind

/-- Effect of `deactivate_game`'s row replacement on every id lookup: the
deactivated id now resolves to the flipped row, every other id resolves as
before. -/
theorem find?_id_replace (l : List Game) (gid : Nat) (g g2 : Game)
    (hg2 : g2.id = gid)
    (hnd : (l.map (·.id)).Nodup)
    (hfind : l.find? (fun x => x.id == gid && x.active) = some g) :
    ∀ k, ((replaceFirst (fun x => x.id == gid && x.active) (fun _ => g2)
        l).find? (fun x => x.id == k))
      = if k = gid then some g2 else l.find? (fun x => x.id == k) := by
  induction l with
  | nil => simp [List.find?] at hfind
  | cons x xs ih =>
    intro k
    rw [List.map_cons, List.nodup_cons] at hnd
    by_cases hp : (x.id == gid && x.active) = true
    · rw [List.find?_cons_of_pos (p := fun x : Game => x.id == gid && x.active) _
          hp] at hfind
      cases hfind
      simp only [replaceFirst, if_pos hp]
      simp only [Bool.and_eq_true, beq_iff_eq] at hp
      by_cases hk : k = gid
      · subst hk
        rw [List.find?_cons_of_pos (p := fun x : Game => x.id == k) _ (by simp [hg2]),
          if_pos rfl]
      · rw [List.find?_cons_of_neg (p := fun x : Game => x.id == k) _
            (by simp only [beq_iff_eq, hg2]; exact fun h => hk h.symm)]
        rw [if_neg hk]
        rw [List.find?_cons_of_neg (p := fun x : Game => x.id == k) _
            (by simp only [beq_iff_eq, hp.1]; exact fun h => hk h.symm)]
    · simp only [replaceFirst, if_neg hp]
      rw [List.find?_cons_of_neg (p := fun x : Game => x.id == gid && x.active) _
          hp] at hfind
      have hxgid : x.id ≠ gid := by
        intro hxg
        have hgmem := List.mem_of_find?_eq_some hfind
        have hgp := List.find?_some hfind
        simp only [Bool.and_eq_true, beq_iff_eq] at hgp
        exact absurd (List.mem_map.mpr ⟨g, hgmem, hgp.1⟩) (hxg ▸ hnd.1)
      by_cases hxk : (x.id == k) = true
      · simp only [beq_iff_eq] at hxk
        have hkgid : k ≠ gid := by rw [← hxk]; exact hxgid
        rw [List.find?_cons_of_pos (p := fun x : Game => x.id == k) _ (by simp [hxk]),
          if_neg hkgid,
          List.find?_cons_of_pos (p := fun x : Game => x.id == k) _ (by simp [hxk])]
      · rw [List.find?_cons_of_neg (p := fun x : Game => x.id == k) _ hxk,
          ih hnd.2 hfind k]
        by_cases hk : k = gid
        · simp [hk]
        · rw [if_neg hk, if_neg hk,
            List.find?_cons_of_neg (p := fun x : Game => x.id == k) _ hxk]

/-- Listing a club through association rows after one game row was flipped
inactive: the flipped game drops out of the active listing, every other
entry survives unchanged and in order. -/
theorem filterMap_deactivated (gid : Nat) (g g2 : Game) (l l2 : List Game)
    (hA : ∀ k, l2.find? (fun x => x.id == k) =
      if k = gid then some g2 else l.find? (fun x => x.id == k))
    (hB : l.find? (fun x => x.id == gid) = some g)
    (hga : g.active = true) (hg2a : g2.active = false) :
    ∀ P : List (Nat × Nat),
      (P.filterMap (fun p => l2.find? (fun x => x.id == p.2))).filter
        (·.active)
      = ((P.filterMap (fun p => l.find? (fun x => x.id == p.2))).filter
          (·.active)).filter (fun x => x.id != gid) := by
  have hgid : g.id = gid := by
    have := List.find?_some hB
    simpa using this
  intro P
  induction P with
  | nil => simp
  | cons p P' ih =>
    by_cases hp : p.2 = gid
    · have h2 : l2.find? (fun x => x.id == p.2) = some g2 := by
        rw [hA p.2, if_pos hp]
      have h1 : l.find? (fun x => x.id == p.2) = some g := by rw [hp]; exact hB
      rw [List.filterMap_cons, h2, List.filterMap_cons, h1]
      rw [List.filter_cons_of_neg (by simp [hg2a])]
      rw [List.filter_cons_of_pos (by simp [hga])]
      rw [List.filter_cons_of_neg (by simp [hgid])]
      exact ih
    · have h2 : l2.find? (fun x => x.id == p.2) =
          l.find? (fun x => x.id == p.2) := by
        rw [hA p.2, if_neg hp]
      rw [List.filterMap_cons, h2, List.filterMap_cons]
      cases hf : l.find? (fun x => x.id == p.2) with
      | none => exact ih
      | some y =>
        have hyid : y.id = p.2 := by
          have := List.find?_some hf
          simpa using this
        by_cases hya : y.active = true
        · rw [List.filter_cons_of_pos (by simp [hya])]
          rw [List.filter_cons_of_pos (by simp [hya])]
          rw [List.filter_cons_of_pos (by simp [hyid]; exact fun h => hp (h ▸ hyid ▸ rfl))]
          rw [ih]
        · rw [List.filter_cons_of_neg (by simp [hya])]
          rw [List.filter_cons_of_neg (by simp [hya])]
          exact ih

/-- C7.  Deactivating a game (with well-formed distinct game ids) leaves
every association row — and the clubs and accounts tables — untouched, and
for every club whose listing succeeded before, the listing afterwards is
exactly the previous listing with the deactivated game filtered out: the
game disappears from every club's list, all other active associated games
survive unchanged and in order. -/
theorem c7_deactivate_game_hides_from_lists (db : DB) (game_id now : Nat)
    (g : Game)
    (hnd : (db.games.map (·.id)).Nodup)
    (hg : get_game db game_id = some g) :
    (deactivate_game db game_id now).2.club_games = db.club_games
    ∧ (deactivate_game db game_id now).2.clubs = db.clubs
    ∧ (deactivate_game db game_id now).2.accounts = db.accounts
    ∧ ∀ club_id prev, get_club_games db club_id = .ok prev →
        get_club_games (deactivate_game db game_id now).2 club_id =
          .ok (prev.filter (fun x => x.id != game_id)) := by
  unfold get_game at hg
  have hdg : (deactivate_game db game_id now).2 =
      { db with games :=
          (replaceFirst (fun x => x.id == game_id && x.active)
            (fun _ => { g with active := false, updated_at := some now })
            db.games) } := by
    unfold deactivate_game
    rw [hg]
  refine ⟨by rw [hdg], by rw [hdg], by rw [hdg], ?_⟩
  intro club_id prev hprev
  have hgp := List.find?_some hg
  simp only [Bool.and_eq_true, beq_iff_eq] at hgp
  have hA := find?_id_replace db.games game_id g
    { g with active := false, updated_at := some now } (by simp [hgp.1])
    hnd hg
  have hB := find?_id_of_find?_active db.games game_id g hnd hg
  unfold get_club_games at hprev ⊢
  cases hcl : get_club db club_id with
  | none => rw [hcl] at hprev; cases hprev
  | some c =>
    rw [hcl] at hprev
    cases hprev
    have hcl2 : get_club (deactivate_game db game_id now).2 club_id =
        some c := by rw [hdg]; exact hcl
    rw [hcl2]
    have hmain := filterMap_deactivated game_id g
      { g with active := false, updated_at := some now } db.games
      (replaceFirst (fun x => x.id == game_id && x.active)
        (fun _ => { g with active := false, updated_at := some now })
        db.games)
      hA hB hgp.2 (by simp)
      (db.club_games.filter (fun p => p.1 == club_id))
    unfold club_games_of
    rw [hdg]
    exact congrArg Except.ok hmain

/-- C7, witness: in a store where club 1 is associated to the active game 1,
deactivating game 1 keeps the association row but empties the club's
listing. -/
theorem c7_deactivate_game_hides_from_lists_witness :
    (deactivate_game ⟨[clubA], [gameA], [], [(1, 1)]⟩ 1 4).2.club_games =
      [(1, 1)]
    ∧ get_club_games (deactivate_game ⟨[clubA], [gameA], [], [(1, 1)]⟩ 1
        4).2 1 = .ok [] := by
  have h := c7_deactivate_game_hides_from_lists
    ⟨[clubA], [gameA], [], [(1, 1)]⟩ 1 4 gameA (by decide) (by decide)
  refine ⟨h.1, ?_⟩
  have h4 := h.2.2.2 1 [gameA] (by decide)
  simpa using h4

/-! ### C5 — partial-update semantics -/

/-- C5, counterexample.  The claim promises that for every active entity
and every partial input, update applies exactly the provided fields.  But
an account update that sets `email_address` to the email of another stored
account does not apply anything: account 1 of `dbMain` is active, yet
updating it with `email_address = "b@x.com"` (held by account 2) yields the
duplicate-email failure and leaves the store unchanged. -/
theorem c5_partial_update_counterexample :
    get_account dbMain 1 = some acctA
    ∧ acctA.active = true
    ∧ (update_account dbMain 1 ⟨some "b@x.com", none, none, none⟩ 7).1 =
        .duplicateEmail
    ∧ (update_account dbMain 1 ⟨some "b@x.com", none, none, none⟩ 7).2 =
        dbMain := by
  refine ⟨by rfl, by rfl, by rfl, by rfl⟩

/-- C5, amended.  For clubs and games the claim holds as stated: when the
id resolves to an active row, update returns a row that takes exactly the
provided fields from the input and every other payload field from the old
row (stamping `updated_at`), replacing just that row; when it does not
resolve, update returns the not-found signal and the untouched store.  For
accounts the same holds, except that an update whose `email_address` is set
to an email already held by a different stored account — active or not —
fails with the duplicate-email condition and changes nothing. -/
theorem c5_partial_update (db : DB) (now : Nat) :
    (∀ club_id u,
      (db.clubs.find? (fun c => c.id == club_id && c.active) = none →
        update_club db club_id u now = (none, db))
      ∧ ∀ c, db.clubs.find? (fun c => c.id == club_id && c.active) = some c →
          ∃ c2 l1 l2,
            db.clubs = l1 ++ c :: l2
            ∧ update_club db club_id u now =
                (some c2, { db with clubs := (l1 ++ c2 :: l2) })
            ∧ c2.nickname = u.nickname.getD c.nickname
            ∧ c2.creator = u.creator.getD c.creator
            ∧ c2.thumbnail_url = u.thumbnail_url.getD c.thumbnail_url
            ∧ c2.active = u.active.getD c.active
            ∧ c2.id = c.id ∧ c2.created_at = c.created_at
            ∧ c2.updated_at = some now)
    ∧ (∀ game_id u,
      (db.games.find? (fun g => g.id == game_id && g.active) = none →
        update_game db game_id u now = (none, db))
      ∧ ∀ g, db.games.find? (fun g => g.id == game_id && g.active) = some g →
          ∃ g2 l1 l2,
            db.games = l1 ++ g :: l2
            ∧ update_game db game_id u now =
                (some g2, { db with games := (l1 ++ g2 :: l2) })
            ∧ g2.name = u.name.getD g.name
            ∧ g2.description = u.description.getD g.description
            ∧ g2.game_composition = u.game_composition.getD g.game_composition
            ∧ g2.min_number_of_teams =
                u.min_number_of_teams.getD g.min_number_of_teams
            ∧ g2.max_number_of_teams =
                u.max_number_of_teams.getD g.max_number_of_teams
            ∧ g2.min_number_of_players =
                u.min_number_of_players.getD g.min_number_of_players
            ∧ g2.max_number_of_players =
                u.max_number_of_players.getD g.max_number_of_players
            ∧ g2.min_number_of_players_per_teams =
                u.min_number_of_players_per_teams.getD
                  g.min_number_of_players_per_teams
            ∧ g2.max_number_of_players_per_teams =
                u.max_number_of_players_per_teams.getD
                  g.max_number_of_players_per_teams
            ∧ g2.thumbnail = u.thumbnail.getD g.thumbnail
            ∧ g2.active = u.active.getD g.active
            ∧ g2.id = g.id ∧ g2.created_at = g.created_at
            ∧ g2.updated_at = some now)
    ∧ (∀ account_id u,
      (get_account db account_id = none →
        update_account db account_id u now = (.notFound, db))
      ∧ ∀ a, get_account db account_id = some a →
          (account_email_conflict db a u = true →
            update_account db account_id u now = (.duplicateEmail, db))
          ∧ (account_email_conflict db a u = false →
            ∃ a2 l1 l2,
              db.accounts = l1 ++ a :: l2
              ∧ update_account db account_id u now =
                  (.updated a2, { db with accounts := (l1 ++ a2 :: l2) })
              ∧ a2.email_address = u.email_address.getD a.email_address
              ∧ a2.first_name = u.first_name.getD a.first_name
              ∧ a2.last_name = u.last_name.getD a.last_name
              ∧ a2.club_id = u.club_id.getD a.club_id
              ∧ a2.id = a.id ∧ a2.active = a.active
              ∧ a2.password_digest = a.password_digest
              ∧ a2.email_verified = a.email_verified
              ∧ a2.last_login_at = a.last_login_at
              ∧ a2.created_at = a.created_at
              ∧ a2.updated_at = some now)) := by
  refine ⟨?_, ?_, ?_⟩
  · intro club_id u
    constructor
    · intro h
      unfold update_club
      rw [h]
    · intro c h
      obtain ⟨l1, l2, hsplit, hpre, hrep⟩ :=
        find?_replaceFirst_split (fun c => c.id == club_id && c.active)
          (fun _ => { applyClubUpdate u c with updated_at := some now })
          db.clubs c h
      refine ⟨{ applyClubUpdate u c with updated_at := some now }, l1, l2,
        hsplit, ?_, by simp [applyClubUpdate], by simp [applyClubUpdate],
        by simp [applyClubUpdate], by simp [applyClubUpdate],
        by simp [applyClubUpdate], by simp [applyClubUpdate], by simp⟩
      have heq : update_club db club_id u now =
          (some { applyClubUpdate u c with updated_at := some now },
            { db with clubs :=
              (replaceFirst (fun c => c.id == club_id && c.active)
                (fun _ => { applyClubUpdate u c with updated_at := some now })
                db.clubs) }) := by
        unfold update_club
        rw [h]
      rw [heq, hrep]
  · intro game_id u
    constructor
    · intro h
      unfold update_game
      rw [h]
    · intro g h
      obtain ⟨l1, l2, hsplit, hpre, hrep⟩ :=
        find?_replaceFirst_split (fun g => g.id == game_id && g.active)
          (fun _ => { applyGameUpdate u g with updated_at := some now })
          db.games g h
      refine ⟨{ applyGameUpdate u g with updated_at := some now }, l1, l2,
        hsplit, ?_, by simp [applyGameUpdate], by simp [applyGameUpdate],
        by simp [applyGameUpdate], by simp [applyGameUpdate],
        by simp [applyGameUpdate], by simp [applyGameUpdate],
        by simp [applyGameUpdate], by simp [applyGameUpdate],
        by simp [applyGameUpdate], by simp [applyGameUpdate],
        by simp [applyGameUpdate], by simp [applyGameUpdate],
        by simp [applyGameUpdate], by simp⟩
      have heq : update_game db game_id u now =
          (some { applyGameUpdate u g with updated_at := some now },
            { db with games :=
              (replaceFirst (fun g => g.id == game_id && g.active)
                (fun _ => { applyGameUpdate u g with updated_at := some now })
                db.games) }) := by
        unfold update_game
        rw [h]
      rw [heq, hrep]
  · intro account_id u
    constructor
    · intro h
      unfold update_account
      rw [h]
    · intro a h
      constructor
      · intro hconf
        unfold update_account
        rw [h]
        simp [hconf]
      · intro hconf
        have h2 : db.accounts.find?
            (fun x => x.id == account_id && x.active) = some a := h
        obtain ⟨l1, l2, hsplit, hpre, hrep⟩ :=
          find?_replaceFirst_split (fun x => x.id == account_id && x.active)
            (fun _ => { applyAccountUpdate u a with updated_at := some now })
            db.accounts a h2
        refine ⟨{ applyAccountUpdate u a with updated_at := some now },
          l1, l2, hsplit, ?_, by simp [applyAccountUpdate],
          by simp [applyAccountUpdate], by simp [applyAccountUpdate],
          by simp [applyAccountUpdate], by simp [applyAccountUpdate],
          by simp [applyAccountUpdate], by simp [applyAccountUpdate],
          by simp [applyAccountUpdate], by simp [applyAccountUpdate],
          by simp [applyAccountUpdate], by simp⟩
        have heq : update_account db account_id u now =
            (.updated { applyAccountUpdate u a with updated_at := some now },
              { db with accounts :=
                (replaceFirst (fun x => x.id == account_id && x.active)
                  (fun _ =>
                    { applyAccountUpdate u a with updated_at := some now })
                  db.accounts) }) := by
          unfold update_account
          rw [h]
          simp [hconf]
        rw [heq, hrep]

/-- C5, witness: an unresolvable id leaves the store untouched, and the
concrete conflicting account update fails with duplicate-email. -/
theorem c5_partial_update_witness :
    update_club dbMain 99 ⟨some "X", none, none, none⟩ 4 = (none, dbMain)
    ∧ update_account dbMain 1 ⟨some "b@x.com", none, none, none⟩ 7 =
        (.duplicateEmail, dbMain) := by
  constructor
  · exact ((c5_partial_update dbMain 4).1 99
      ⟨some "X", none, none, none⟩).1 (by decide)
  · exact (((c5_partial_update dbMain 7).2.2 1
      ⟨some "b@x.com", none, none, none⟩).2 acctA (by decide)).1 (by decide)

/-! ### C10 — irreversibility of soft delete through the public interface -/

/-- Replacing the row found by a filter that requires `active`, with a row
of the same id, preserves the soft-deleted state of id `i`: the matched row
is active, so its id cannot be the soft-deleted one. -/
theorem deactivated_replace_found {α} (idf : α → Nat) (actf : α → Bool)
    (l : List α) (p : α → Bool) (a a2 : α) (i : Nat)
    (hf : l.find? p = some a)
    (hact : actf a = true)
    (hid : idf a2 = idf a)
    (h : deactivatedIn (l.map (fun y => (idf y, actf y))) i) :
    deactivatedIn ((replaceFirst p (fun _ => a2) l).map
      (fun y => (idf y, actf y))) i := by
  have hnotI : idf a ≠ i :=
    not_deactivated_of_active idf actf l a i (List.mem_of_find?_eq_some hf)
      hact h
  obtain ⟨l1, l2, hsplit, hpre, hrep⟩ :=
    find?_replaceFirst_split p (fun _ => a2) l a hf
  rw [hrep]
  rw [hsplit] at h
  exact deactivatedIn_replace idf actf l1 l2 a a2 i hid
    (fun hci => absurd hci hnotI) h

/-- Replacing the row found by any filter with a row of the same id and the
same `active` flag preserves the soft-deleted state of id `i`. -/
theorem deactivated_replace_same {α} (idf : α → Nat) (actf : α → Bool)
    (l : List α) (p : α → Bool) (a a2 : α) (i : Nat)
    (hf : l.find? p = some a)
    (hid : idf a2 = idf a) (hact2 : actf a2 = actf a)
    (h : deactivatedIn (l.map (fun y => (idf y, actf y))) i) :
    deactivatedIn ((replaceFirst p (fun _ => a2) l).map
      (fun y => (idf y, actf y))) i := by
  obtain ⟨l1, l2, hsplit, hpre, hrep⟩ :=
    find?_replaceFirst_split p (fun _ => a2) l a hf
  rw [hrep]
  rw [hsplit] at h
  refine deactivatedIn_replace idf actf l1 l2 a a2 i hid ?_ h
  intro hai
  have hpair : (i, actf a) = (idf a, actf a) := by rw [hai]
  have hmem : (i, actf a) ∈ (l1 ++ a :: l2).map
      (fun y => (idf y, actf y)) := by
    rw [List.map_append, List.map_cons, hpair]
    exact List.mem_append_right _ (List.mem_cons_self ..)
  rw [hact2]
  exact h.2 _ hmem

/-- Replacing the row found by any filter with an inactive row of the same
id preserves the soft-deleted state of id `i`. -/
theorem deactivated_replace_inactive {α} (idf : α → Nat) (actf : α → Bool)
    (l : List α) (p : α → Bool) (a a2 : α) (i : Nat)
    (hf : l.find? p = some a)
    (hid : idf a2 = idf a) (ha2 : actf a2 = false)
    (h : deactivatedIn (l.map (fun y => (idf y, actf y))) i) :
    deactivatedIn ((replaceFirst p (fun _ => a2) l).map
      (fun y => (idf y, actf y))) i := by
  obtain ⟨l1, l2, hsplit, hpre, hrep⟩ :=
    find?_replaceFirst_split p (fun _ => a2) l a hf
  rw [hrep]
  rw [hsplit] at h
  exact deactivatedIn_replace idf actf l1 l2 a a2 i hid (fun _ => ha2) h

/-- The three soft-deleted-state predicates only read their own table. -/
theorem deactivated_congr (db db2 : DB) (i : Nat)
    (hc : db2.clubs = db.clubs) (hg : db2.games = db.games)
    (ha : db2.accounts = db.accounts) :
    (clubDeactivated db i → clubDeactivated db2 i)
    ∧ (gameDeactivated db i → gameDeactivated db2 i)
    ∧ (accountDeactivated db i → accountDeactivated db2 i) := by
  unfold clubDeactivated gameDeactivated accountDeactivated
  rw [hc, hg, ha]
  exact ⟨fun h => h, fun h => h, fun h => h⟩

/-- One public API call cannot resurrect a soft-deleted club, game, or
account: every update/deactivate path loads the row filtered on
`active == true` (so the write never lands on a soft-deleted row), logins
and password changes preserve the `active` flag, creations use a fresh
primary key, and association calls touch only the join table. -/
theorem applyOp_preserves (db : DB) (op : Op) (i : Nat) :
    (clubDeactivated db i → clubDeactivated (applyOp db op) i)
    ∧ (gameDeactivated db i → gameDeactivated (applyOp db op) i)
    ∧ (accountDeactivated db i → accountDeactivated (applyOp db op) i) := by
  cases op with
  | createClub input now =>
    have hdb : applyOp db (.createClub input now) =
        { db with clubs := (db.clubs ++
          [{ id := nextId (db.clubs.map (·.id)), nickname := input.nickname
             creator := input.creator, thumbnail_url := input.thumbnail_url
             active := true, created_at := now, updated_at := none }]) } :=
      rfl
    rw [hdb]
    refine ⟨fun h => ?_, fun h => h, fun h => h⟩
    exact deactivatedIn_append (fun c : Club => c.id)
      (fun c : Club => c.active) db.clubs _ i
      (fun y hy => nextId_fresh _ _
        (List.mem_map_of_mem (fun c : Club => c.id) hy)) h
  | updateClub club_id u now =>
    cases hf : db.clubs.find? (fun c => c.id == club_id && c.active) with
    | none =>
      have hdb : applyOp db (.updateClub club_id u now) = db := by
        simp only [applyOp]
        unfold update_club
        rw [hf]
      rw [hdb]
      exact ⟨fun h => h, fun h => h, fun h => h⟩
    | some c =>
      have hp := List.find?_some hf
      simp only [Bool.and_eq_true, beq_iff_eq] at hp
      have hdb : applyOp db (.updateClub club_id u now) =
          { db with clubs :=
            (replaceFirst (fun c => c.id == club_id && c.active)
              (fun _ => { applyClubUpdate u c with updated_at := some now })
              db.clubs) } := by
        simp only [applyOp]
        unfold update_club
        rw [hf]
      rw [hdb]
      refine ⟨fun h => ?_, fun h => h, fun h => h⟩
      exact deactivated_replace_found (fun c : Club => c.id)
        (fun c : Club => c.active) db.clubs
        (fun c => c.id == club_id && c.active) c
        { applyClubUpdate u c with updated_at := some now } i hf hp.2
        (by simp [applyClubUpdate]) h
  | deleteClub club_id now =>
    cases hf : db.clubs.find? (fun c => c.id == club_id && c.active) with
    | none =>
      have hdb : applyOp db (.deleteClub club_id now) = db := by
        simp only [applyOp]
        unfold deactivate_club
        rw [hf]
      rw [hdb]
      exact ⟨fun h => h, fun h => h, fun h => h⟩
    | some c =>
      have hp := List.find?_some hf
      simp only [Bool.and_eq_true, beq_iff_eq] at hp
      have hdb : applyOp db (.deleteClub club_id now) =
          { db with clubs :=
            (replaceFirst (fun c => c.id == club_id && c.active)
              (fun _ => { c with active := false, updated_at := some now })
              db.clubs) } := by
        simp only [applyOp]
        unfold deactivate_club
        rw [hf]
      rw [hdb]
      refine ⟨fun h => ?_, fun h => h, fun h => h⟩
      exact deactivated_replace_found (fun c : Club => c.id)
        (fun c : Club => c.active) db.clubs
        (fun c => c.id == club_id && c.active) c
        { c with active := false, updated_at := some now } i hf hp.2
        (by simp) h
  | createGame input now =>
    have hdb : applyOp db (.createGame input now) =
        { db with games := (db.games ++
          [{ id := nextId (db.games.map (·.id)), name := input.name
             description := input.description
             game_composition := input.game_composition
             min_number_of_teams := input.min_number_of_teams
             max_number_of_teams := input.max_number_of_teams
             min_number_of_players := input.min_number_of_players
             max_number_of_players := input.max_number_of_players
             min_number_of_players_per_teams :=
               input.min_number_of_players_per_teams
             max_number_of_players_per_teams :=
               input.max_number_of_players_per_teams
             thumbnail := input.thumbnail, active := true
             created_at := now, updated_at := none }]) } := rfl
    rw [hdb]
    refine ⟨fun h => h, fun h => ?_, fun h => h⟩
    exact deactivatedIn_append (fun g : Game => g.id)
      (fun g : Game => g.active) db.games _ i
      (fun y hy => nextId_fresh _ _
        (List.mem_map_of_mem (fun g : Game => g.id) hy)) h
  | updateGame game_id u now =>
    cases hf : db.games.find? (fun g => g.id == game_id && g.active) with
    | none =>
      have hdb : applyOp db (.updateGame game_id u now) = db := by
        simp only [applyOp]
        unfold update_game
        rw [hf]
      rw [hdb]
      exact ⟨fun h => h, fun h => h, fun h => h⟩
    | some g =>
      have hp := List.find?_some hf
      simp only [Bool.and_eq_true, beq_iff_eq] at hp
      have hdb : applyOp db (.updateGame game_id u now) =
          { db with games :=
            (replaceFirst (fun g => g.id == game_id && g.active)
              (fun _ => { applyGameUpdate u g with updated_at := some now })
              db.games) } := by
        simp only [applyOp]
        unfold update_game
        rw [hf]
      rw [hdb]
      refine ⟨fun h => h, fun h => ?_, fun h => h⟩
      exact deactivated_replace_found (fun g : Game => g.id)
        (fun g : Game => g.active) db.games
        (fun g => g.id == game_id && g.active) g
        { applyGameUpdate u g with updated_at := some now } i hf hp.2
        (by simp [applyGameUpdate]) h
  | deleteGame game_id now =>
    cases hf : db.games.find? (fun g => g.id == game_id && g.active) with
    | none =>
      have hdb : applyOp db (.deleteGame game_id now) = db := by
        simp only [applyOp]
        unfold deactivate_game
        rw [hf]
      rw [hdb]
      exact ⟨fun h => h, fun h => h, fun h => h⟩
    | some g =>
      have hp := List.find?_some hf
      simp only [Bool.and_eq_true, beq_iff_eq] at hp
      have hdb : applyOp db (.deleteGame game_id now) =
          { db with games :=
            (replaceFirst (fun g => g.id == game_id && g.active)
              (fun _ => { g with active := false, updated_at := some now })
              db.games) } := by
        simp only [applyOp]
        unfold deactivate_game
        rw [hf]
      rw [hdb]
      refine ⟨fun h => h, fun h => ?_, fun h => h⟩
      exact deactivated_replace_found (fun g : Game => g.id)
        (fun g : Game => g.active) db.games
        (fun g => g.id == game_id && g.active) g
        { g with active := false, updated_at := some now } i hf hp.2
        (by simp) h
  | createAccount input hashed now =>
    cases hf : get_account_by_email db input.email_address with
    | some a =>
      have hdb : applyOp db (.createAccount input hashed now) = db := by
        simp only [applyOp]
        unfold create_account
        rw [hf]
      rw [hdb]
      exact ⟨fun h => h, fun h => h, fun h => h⟩
    | none =>
      have hdb : applyOp db (.createAccount input hashed now) =
          { db with accounts := (db.accounts ++
            [{ id := nextId (db.accounts.map (·.id))
               email_address := input.email_address
               first_name := input.first_name
               last_name := input.last_name
               password_digest := hashed
               club_id := input.club_id
               active := true
               email_verified := false
               last_login_at := none
               created_at := now
               updated_at := none }]) } := by
        simp only [applyOp]
        unfold create_account
        rw [hf]
      rw [hdb]
      refine ⟨fun h => h, fun h => h, fun h => ?_⟩
      exact deactivatedIn_append (fun a : Account => a.id)
        (fun a : Account => a.active) db.accounts _ i
        (fun y hy => nextId_fresh _ _
          (List.mem_map_of_mem (fun a : Account => a.id) hy)) h
  | updateAccount account_id u now =>
    cases hf : get_account db account_id with
    | none =>
      have hdb : applyOp db (.updateAccount account_id u now) = db := by
        simp only [applyOp]
        unfold update_account
        rw [hf]
      rw [hdb]
      exact ⟨fun h => h, fun h => h, fun h => h⟩
    | some a =>
      have h2 : db.accounts.find?
          (fun x => x.id == account_id && x.active) = some a := hf
      have hp := List.find?_some h2
      simp only [Bool.and_eq_true, beq_iff_eq] at hp
      cases hconf : account_email_conflict db a u with
      | true =>
        have hdb : applyOp db (.updateAccount account_id u now) = db := by
          simp only [applyOp]
          unfold update_account
          rw [hf]
          simp [hconf]
        rw [hdb]
        exact ⟨fun h => h, fun h => h, fun h => h⟩
      | false =>
        have hdb : applyOp db (.updateAccount account_id u now) =
            { db with accounts :=
              (replaceFirst (fun x => x.id == account_id && x.active)
                (fun _ =>
                  { applyAccountUpdate u a with updated_at := some now })
                db.accounts) } := by
          simp only [applyOp]
          unfold update_account
          rw [hf]
          simp [hconf]
        rw [hdb]
        refine ⟨fun h => h, fun h => h, fun h => ?_⟩
        exact deactivated_replace_found (fun a : Account => a.id)
          (fun a : Account => a.active) db.accounts
          (fun x => x.id == account_id && x.active) a
          { applyAccountUpdate u a with updated_at := some now } i h2 hp.2
          (by simp [applyAccountUpdate]) h
  | updateAccountPassword account_id verified new_hashed =>
    cases hf : get_account db account_id with
    | none =>
      have hdb : applyOp db
          (.updateAccountPassword account_id verified new_hashed) = db := by
        simp only [applyOp]
        unfold update_account_password
        rw [hf]
      rw [hdb]
      exact ⟨fun h => h, fun h => h, fun h => h⟩
    | some a =>
      have h2 : db.accounts.find?
          (fun x => x.id == account_id && x.active) = some a := hf
      have hp := List.find?_some h2
      simp only [Bool.and_eq_true, beq_iff_eq] at hp
      cases verified with
      | false =>
        have hdb : applyOp db
            (.updateAccountPassword account_id false new_hashed) = db := by
          simp only [applyOp]
          unfold update_account_password
          rw [hf]
          rfl
        rw [hdb]
        exact ⟨fun h => h, fun h => h, fun h => h⟩
      | true =>
        have hdb : applyOp db
            (.updateAccountPassword account_id true new_hashed) =
            { db with accounts :=
              (replaceFirst (fun x => x.id == account_id && x.active)
                (fun _ => { a with password_digest := new_hashed })
                db.accounts) } := by
          simp only [applyOp]
          unfold update_account_password
          rw [hf]
          rfl
        rw [hdb]
        refine ⟨fun h => h, fun h => h, fun h => ?_⟩
        exact deactivated_replace_found (fun a : Account => a.id)
          (fun a : Account => a.active) db.accounts
          (fun x => x.id == account_id && x.active) a
          { a with password_digest := new_hashed } i h2 hp.2 (by simp) h
  | deleteAccount account_id now =>
    cases hf : get_account db account_id with
    | none =>
      have hdb : applyOp db (.deleteAccount account_id now) = db := by
        simp only [applyOp]
        unfold deactivate_account
        rw [hf]
      rw [hdb]
      exact ⟨fun h => h, fun h => h, fun h => h⟩
    | some a =>
      have h2 : db.accounts.find?
          (fun x => x.id == account_id && x.active) = some a := hf
      have hp := List.find?_some h2
      simp only [Bool.and_eq_true, beq_iff_eq] at hp
      have hdb : applyOp db (.deleteAccount account_id now) =
          { db with accounts :=
            (replaceFirst (fun x => x.id == account_id && x.active)
              (fun _ => { a with active := false, updated_at := some now })
              db.accounts) } := by
        simp only [applyOp]
        unfold deactivate_account
        rw [hf]
      rw [hdb]
      refine ⟨fun h => h, fun h => h, fun h => ?_⟩
      exact deactivated_replace_found (fun a : Account => a.id)
        (fun a : Account => a.active) db.accounts
        (fun x => x.id == account_id && x.active) a
        { a with active := false, updated_at := some now } i h2 hp.2
        (by simp) h
  | login email_address verified now =>
    cases hf : get_account_by_email db email_address with
    | none =>
      have hdb : applyOp db (.login email_address verified now) = db := by
        simp only [applyOp]
        unfold authenticate_account
        rw [hf]
      rw [hdb]
      exact ⟨fun h => h, fun h => h, fun h => h⟩
    | some a =>
      have h2 : db.accounts.find?
          (fun x => x.email_address == email_address) = some a := hf
      cases verified with
      | false =>
        have hdb : applyOp db (.login email_address false now) = db := by
          simp only [applyOp]
          unfold authenticate_account
          rw [hf]
          rfl
        rw [hdb]
        exact ⟨fun h => h, fun h => h, fun h => h⟩
      | true =>
        have hdb : applyOp db (.login email_address true now) =
            { db with accounts :=
              (replaceFirst (fun x => x.email_address == email_address)
                (fun _ => { a with last_login_at := some now })
                db.accounts) } := by
          simp only [applyOp]
          unfold authenticate_account
          rw [hf]
          rfl
        rw [hdb]
        refine ⟨fun h => h, fun h => h, fun h => ?_⟩
        exact deactivated_replace_same (fun a : Account => a.id)
          (fun a : Account => a.active) db.accounts
          (fun x => x.email_address == email_address) a
          { a with last_login_at := some now } i h2 (by simp) (by simp) h
  | addClubGame club_id game_id =>
    have hdb : ∃ ps, applyOp db (.addClubGame club_id game_id) =
        { db with club_games := ps } := by
      simp only [applyOp]
      unfold add_game_to_club
      cases get_club db club_id with
      | none => exact ⟨db.club_games, rfl⟩
      | some c =>
        cases get_game db game_id with
        | none => exact ⟨db.club_games, rfl⟩
        | some g =>
          by_cases hg : game_in_club db club_id game_id = true
          · rw [hg]
            exact ⟨db.club_games, rfl⟩
          · rw [Bool.not_eq_true] at hg
            rw [hg]
            exact ⟨db.club_games ++ [(club_id, game_id)], rfl⟩
    obtain ⟨ps, hps⟩ := hdb
    rw [hps]
    exact deactivated_congr db _ i rfl rfl rfl
  | removeClubGame club_id game_id =>
    have hdb : ∃ ps, applyOp db (.removeClubGame club_id game_id) =
        { db with club_games := ps } := by
      simp only [applyOp]
      unfold remove_game_from_club
      cases get_club db club_id with
      | none => exact ⟨db.club_games, rfl⟩
      | some c =>
        cases get_game db game_id with
        | none => exact ⟨db.club_games, rfl⟩
        | some g =>
          by_cases hg : game_in_club db club_id game_id = true
          · rw [hg]
            exact ⟨db.club_games.eraseP
              (fun p => p.1 == club_id && p.2 == game_id), rfl⟩
          · rw [Bool.not_eq_true] at hg
            rw [hg]
            exact ⟨db.club_games, rfl⟩
    obtain ⟨ps, hps⟩ := hdb
    rw [hps]
    exact deactivated_congr db _ i rfl rfl rfl

/-- C10.  Soft deletion is irreversible through the public interface: once
a club, game, or account id is soft-deleted (a row with that id exists and
every row with that id is inactive), it stays soft-deleted after any
sequence of public API operations — the `active`-filtered lookups mean the
only request field that can write `active` is only ever applied to rows
that are still active. -/
theorem c10_deactivation_irreversible (ops : List Op) (db : DB) (i : Nat) :
    (clubDeactivated db i → clubDeactivated (runOps db ops) i)
    ∧ (gameDeactivated db i → gameDeactivated (runOps db ops) i)
    ∧ (accountDeactivated db i → accountDeactivated (runOps db ops) i) := by
  induction ops generalizing db with
  | nil => exact ⟨fun h => h, fun h => h, fun h => h⟩
  | cons op ops ih =>
    have hstep := applyOp_preserves db op i
    have hrest := ih (applyOp db op)
    exact ⟨fun h => hrest.1 (hstep.1 h),
      fun h => hrest.2.1 (hstep.2.1 h),
      fun h => hrest.2.2 (hstep.2.2 h)⟩

/-- C10, witness: the soft-deleted account 3 of `dbMain` stays
soft-deleted across a concrete sequence of API calls that updates it,
logs in with its email, deletes it again and creates a fresh account. -/
theorem c10_deactivation_irreversible_witness :
    accountDeactivated (runOps dbMain
      [.updateAccount 3 ⟨some "z@x.com", none, none, none⟩ 9,
       .login "c@x.com" true 9,
       .deleteAccount 3 9,
       .createAccount ⟨"d@x.com", "Dai", "Em", "longenough1", 1⟩ "h4" 9]) 3 :=
  (c10_deactivation_irreversible _ dbMain 3).2.2 (by decide)

end YoApunto
